import Mathlib

/-!
Verification of the resilient concurrent dispatch layer of `langextract`:
the transient-error classifier and retry decorators (`langextract/retry_utils.py`)
and the DashScope provider's batch dispatcher
(`langextract/providers/dashscope.py`, `DashScopeLanguageModel.infer`).

Conventions of the shallow embedding:
* Python exceptions are modelled by `PyError` (class name, base-class names,
  `str(e)` rendering, and the wrapped `original` exception where the code
  attaches one).
* Python `float` delays are modelled as exact rationals (`ℚ`); the claims
  settled here concern order and bounds, not rounding.
* `random.random()` is modelled by an oracle `rand : Nat → ℚ` giving the
  value drawn on each attempt, constrained to `[0, 1)` where a claim needs it.
* A unit of work that may be invoked repeatedly is modelled as a function
  from its invocation number (0-based) to its outcome, so that stateful
  behaviour such as "fails twice then succeeds" is expressible.
* Fallible code returns `Except PyError α`; a raised exception is `.error`.
-/

namespace LangExtract

/-- A Python exception value: its class name (`type(e).__name__`), the names of
its proper base classes (the inheritance chain — recorded so that claims about
name-vs-inheritance matching can be stated; `is_transient_error` never reads
it), its textual rendering (`str(e)`), and the exception it wraps, if any
(the `original=` argument of `InferenceRuntimeError`). -/
inductive PyError : Type where
  | mk (typeName : String) (baseNames : List String) (msg : String)
      (original : Option PyError) : PyError

def PyError.typeName : PyError → String
  | .mk t _ _ _ => t

def PyError.baseNames : PyError → List String
  | .mk _ b _ _ => b

def PyError.msg : PyError → String
  | .mk _ _ m _ => m

def PyError.original : PyError → Option PyError
  | .mk _ _ _ o => o

/-- `core_types.ScoredOutput`: a score and the raw response text. -/
structure ScoredOutput where
  score : ℚ
  output : String
deriving DecidableEq

/-! ### String primitives: Python `str.lower()` and the `in` substring test -/

/-- Python `str.lower()` (all messages and patterns here are ASCII):
lower-case every character.  Written over the underlying character list so
that it reduces in the kernel. -/
def strLower (s : String) : String := String.mk (s.data.map Char.toLower)

/-- `needle` occurs at the start of `hay` (on character lists). -/
def leadsWith : (hay needle : List Char) → Bool
  | _, [] => true
  | [], _ :: _ => false
  | h :: hs, n :: ns => (h == n) && leadsWith hs ns

/-- Python's substring test `needle in hay`, on character lists. -/
def hasSub (needle : List Char) : (hay : List Char) → Bool
  | [] => needle.isEmpty
  | c :: rest => leadsWith (c :: rest) needle || hasSub needle rest

/-- Python's `needle in hay` on strings. -/
def strIn (needle hay : String) : Bool := hasSub needle.toList hay.toList

/-! ### `langextract/retry_utils.py` -/

/-- `TRANSIENT_ERROR_PATTERNS` (retry_utils.py lines 30–49). -/
def TRANSIENT_ERROR_PATTERNS : List String := [
    "503",
    "service unavailable",
    "temporarily unavailable",
    "rate limit",
    "429",
    "too many requests",
    "connection reset",
    "timeout",
    "timed out",
    "deadline exceeded",
    "model is overloaded",
    "quota exceeded",
    "resource exhausted",
    "internal server error",
    "502",
    "504",
    "gateway timeout",
    "bad gateway",
]

/-- `TRANSIENT_EXCEPTION_TYPES` (retry_utils.py lines 52–60). -/
def TRANSIENT_EXCEPTION_TYPES : List String := [
    "ServiceUnavailable",
    "RateLimitError",
    "Timeout",
    "ConnectionError",
    "TimeoutError",
    "OSError",
    "RuntimeError",
]

/-- `is_transient_error` (retry_utils.py lines 63–83): pattern match on the
lower-cased message, OR exact match of `type(error).__name__` against the
transient type list. -/
def is_transient_error (error : PyError) : Bool :=
  let error_str := strLower error.msg
  let error_type := error.typeName
  let is_transient_pattern :=
    TRANSIENT_ERROR_PATTERNS.any (fun pat => strIn pat error_str)
  let is_transient_type := TRANSIENT_EXCEPTION_TYPES.contains error_type
  is_transient_pattern || is_transient_type

/-- Observable trace of one run of a retry wrapper: the final outcome, the
number of invocations of the wrapped function, and the delays passed to
`time.sleep`, in order. -/
structure RetryRun (α : Type) where
  result : Except PyError α
  calls : Nat
  sleeps : List ℚ

/-- The attempt loop shared by `retry_on_transient_errors.wrapper`
(retry_utils.py lines 108–159): `remaining = max_retries - attempt` counts the
attempts still allowed after the current one (the loop runs `attempt` from 0 to
`max_retries`; `remaining = 0` is the last allowed attempt), `delay` is the
loop variable `delay`.  On each failure: re-raise when non-transient; re-raise
when on the last attempt; otherwise sleep
`current_delay = min(delay, max_delay)` plus, when `jitter` is set,
`current_delay * 0.1 * random.random()` (the draw is `rand attempt`), and
continue with `delay = min(delay * backoff_factor, max_delay)`. -/
def retryAux {α : Type} (op : Nat → Except PyError α)
    (backoff_factor max_delay : ℚ) (jitter : Bool) (rand : Nat → ℚ) :
    (remaining attempt : Nat) → (delay : ℚ) → RetryRun α
  | 0, attempt, _ =>
    -- the last allowed attempt (`attempt == max_retries`): on failure the
    -- exception is re-raised whether transient (retries exhausted, line 126)
    -- or not (line 119)
    match op attempt with
    | .ok v => ⟨.ok v, 1, []⟩
    | .error e =>
      if is_transient_error e = false then ⟨.error e, 1, []⟩
      else ⟨.error e, 1, []⟩
  | r + 1, attempt, delay =>
    match op attempt with
    | .ok v => ⟨.ok v, 1, []⟩
    | .error e =>
      if is_transient_error e = false then
        ⟨.error e, 1, []⟩
      else
        let current_delay := min delay max_delay
        let slept :=
          if jitter then current_delay + current_delay * (1 / 10) * rand attempt
          else current_delay
        let rest := retryAux op backoff_factor max_delay jitter rand r
            (attempt + 1) (min (delay * backoff_factor) max_delay)
        ⟨rest.result, rest.calls + 1, slept :: rest.sleeps⟩

/-- `retry_on_transient_errors` (retry_utils.py lines 86–163) applied to a
unit of work `op` (`op k` = outcome of the `k`-th invocation). -/
def retry_on_transient_errors {α : Type} (max_retries : Nat)
    (initial_delay backoff_factor max_delay : ℚ) (jitter : Bool)
    (rand : Nat → ℚ) (op : Nat → Except PyError α) : RetryRun α :=
  retryAux op backoff_factor max_delay jitter rand max_retries 0 initial_delay

/-- `retry_chunk_processing` (retry_utils.py lines 166–250): when `enabled` is
false the wrapper returns `func(*args, **kwargs)` directly — one invocation, no
sleep, any exception propagating unchanged (lines 193–194).  When enabled, its
attempt loop (lines 196–246) is character-for-character the loop of
`retry_on_transient_errors` with jitter applied unconditionally. -/
def retry_chunk_processing {α : Type} (max_retries : Nat)
    (initial_delay backoff_factor max_delay : ℚ) (enabled : Bool)
    (rand : Nat → ℚ) (op : Nat → Except PyError α) : RetryRun α :=
  if enabled = false then
    ⟨op 0, 1, []⟩
  else
    retryAux op backoff_factor max_delay true rand max_retries 0 initial_delay

/-! ### `langextract/providers/dashscope.py` -/

/-- `exceptions.InferenceRuntimeError(msg, original=e)` as raised in
dashscope.py.  The base-class list of the external `langextract.core.exceptions`
module is not modelled (it is never consulted by any code embedded here). -/
def InferenceRuntimeError (msg : String) (original : Option PyError) : PyError :=
  .mk "InferenceRuntimeError" [] msg original

/-- `DashScopeLanguageModel._process_single_prompt` (dashscope.py lines
159–227) for one prompt, with the backend call abstracted as `unit`
(`unit k` = outcome of the `k`-th invocation of
`self._client.chat.completions.create` for this prompt).  The method body
contains exactly one such call and no retry wrapper, so only `unit 0` is ever
invoked; on success it returns `ScoredOutput(score=1.0, output=text)`, on any
exception it raises `InferenceRuntimeError("DashScope API error: ...", original=e)`. -/
def process_single_prompt (unit : Nat → Except PyError String) :
    Except PyError ScoredOutput :=
  match unit 0 with
  | .ok output_text => .ok { score := 1, output := output_text }
  | .error e =>
      .error (InferenceRuntimeError ("DashScope API error: " ++ e.msg) (some e))

/-- The `as_completed` loop of `infer` (dashscope.py lines 279–286): futures
are consumed in completion order (`order`, a permutation of the indices);
each completed result is written into the pre-sized buffer at its originating
index; the first failed future raises
`InferenceRuntimeError("Parallel inference error: ...", original=e)`. -/
def fillLoop (outs : Nat → Except PyError ScoredOutput) :
    (order : List Nat) → (results : List (Option ScoredOutput)) →
    Except PyError (List (Option ScoredOutput))
  | [], results => .ok results
  | i :: restOrder, results =>
    match outs i with
    | .ok v => fillLoop outs restOrder (results.set i (some v))
    | .error e =>
        .error (InferenceRuntimeError ("Parallel inference error: " ++ e.msg)
          (some e))

/-- The emission loop of `infer` (dashscope.py lines 288–293): any `None` slot
raises `InferenceRuntimeError("Failed to process one or more prompts")`,
otherwise each result is yielded in index order.  The whole run of the
generator is modelled at once. -/
def emitLoop : List (Option ScoredOutput) → Except PyError (List ScoredOutput)
  | [] => .ok []
  | none :: _ =>
      .error (InferenceRuntimeError "Failed to process one or more prompts" none)
  | some v :: rest => (emitLoop rest).map (fun l => v :: l)

/-- The sequential path of `infer` (dashscope.py lines 294–298), processing
prompts `i, i+1, …` while `n` remain: each prompt is processed by one direct
call to `_process_single_prompt`; an exception propagates, so later prompts'
units are never invoked (their invocation count is 0).  Returns the whole-run
outcome together with the per-prompt invocation counts. -/
def seqLoop (outs : Nat → Except PyError ScoredOutput) :
    (i n : Nat) → Except PyError (List ScoredOutput) × List Nat
  | _, 0 => (.ok [], [])
  | i, n + 1 =>
    match outs i with
    | .error e => (.error e, 1 :: List.replicate n 0)
    | .ok v =>
      let rest := seqLoop outs (i + 1) n
      (rest.1.map (fun l => v :: l), 1 :: rest.2)

/-- `DashScopeLanguageModel.infer` (dashscope.py lines 229–298).
`unit i k` is the outcome of the `k`-th invocation of the backend call for the
prompt at position `i` (`enumerate(batch_prompts)`); only `k = 0` is reachable,
since `_process_single_prompt` is submitted to the pool directly, with no retry
wrapper.  `order` is the completion order of the futures in the parallel path
(each submitted future completes exactly once, so `order` is a permutation of
the indices).  The parallel path is taken iff `len(batch_prompts) > 1 and
self.max_workers > 1`.  The second component records how many times each
prompt's unit was invoked: in the parallel path every future was submitted
before consumption starts and the pool runs each exactly once (`as_completed`
cancels nothing), so every count is 1. -/
def infer (unit : Nat → Nat → Except PyError String)
    (batch_prompts : List String) (max_workers : Nat) (order : List Nat) :
    Except PyError (List ScoredOutput) × List Nat :=
  let outs := fun i => process_single_prompt (unit i)
  if 1 < batch_prompts.length ∧ 1 < max_workers then
    match fillLoop outs order (List.replicate batch_prompts.length none) with
    | .error e => (.error e, List.replicate batch_prompts.length 1)
    | .ok results => (emitLoop results, List.replicate batch_prompts.length 1)
  else
    seqLoop outs 0 batch_prompts.length

/-! ### Helper lemmas about the retry loop -/

/-- If the first `k` invocations fail transiently and the `k`-th succeeds
(`k ≤ remaining`), the loop makes `k + 1` invocations and returns the
successful result. -/
theorem retryAux_ok_after {α : Type} (op : Nat → Except PyError α)
    (f md : ℚ) (jit : Bool) (rand : Nat → ℚ) (err : Nat → PyError) (v : α)
    (k : Nat) :
    ∀ (remaining attempt : Nat) (delay : ℚ), k ≤ remaining →
      (∀ i, i < k → op (attempt + i) = .error (err (attempt + i)) ∧
        is_transient_error (err (attempt + i)) = true) →
      op (attempt + k) = .ok v →
      (retryAux op f md jit rand remaining attempt delay).result = .ok v ∧
      (retryAux op f md jit rand remaining attempt delay).calls = k + 1 := by
  induction k with
  | zero =>
    intro remaining attempt delay _ _ hsucc
    have h : op attempt = .ok v := by simpa using hsucc
    cases remaining <;> simp [retryAux, h]
  | succ k ih =>
    intro remaining attempt delay hk hfail hsucc
    obtain ⟨r, rfl⟩ : ∃ r, remaining = r + 1 := ⟨remaining - 1, by omega⟩
    have h0 := hfail 0 (by omega)
    simp only [Nat.add_zero] at h0
    have hfail' : ∀ i, i < k → op (attempt + 1 + i) = .error (err (attempt + 1 + i)) ∧
        is_transient_error (err (attempt + 1 + i)) = true := by
      intro i hi
      have := hfail (i + 1) (by omega)
      have harith : attempt + (i + 1) = attempt + 1 + i := by omega
      rwa [harith] at this
    have hsucc' : op (attempt + 1 + k) = .ok v := by
      have harith : attempt + (k + 1) = attempt + 1 + k := by omega
      rwa [harith] at hsucc
    have := ih r (attempt + 1) (min (delay * f) md) (by omega) hfail' hsucc'
    simp [retryAux, h0.1, h0.2, this.1, this.2]

/-- If every invocation fails transiently, the loop makes `remaining + 1`
invocations and re-raises the error of the last attempt. -/
theorem retryAux_allfail {α : Type} (op : Nat → Except PyError α)
    (f md : ℚ) (jit : Bool) (rand : Nat → ℚ) (err : Nat → PyError)
    (hfail : ∀ i, op i = .error (err i) ∧ is_transient_error (err i) = true) :
    ∀ (remaining attempt : Nat) (delay : ℚ),
      (retryAux op f md jit rand remaining attempt delay).result =
        .error (err (attempt + remaining)) ∧
      (retryAux op f md jit rand remaining attempt delay).calls = remaining + 1 := by
  intro remaining
  induction remaining with
  | zero =>
    intro attempt delay
    simp [retryAux, (hfail attempt).1, (hfail attempt).2]
  | succ r ih =>
    intro attempt delay
    have h := ih (attempt + 1) (min (delay * f) md)
    have harith : attempt + 1 + r = attempt + (r + 1) := by omega
    rw [harith] at h
    simp [retryAux, (hfail attempt).1, (hfail attempt).2, h.1, h.2]

/-! ### Claims C2, C3, C4, C9 -/

/-- C2: an operation wrapped by `retry_on_transient_errors` that fails with a
transient failure exactly `k` times (`k ≤ max_retries`) and then succeeds is
invoked exactly `k + 1` times, and the wrapper returns the operation's final
successful result. -/
theorem retry_transient_then_success {α : Type} (max_retries k : Nat)
    (initial_delay backoff_factor max_delay : ℚ) (jitter : Bool)
    (rand : Nat → ℚ) (op : Nat → Except PyError α) (err : Nat → PyError)
    (v : α) (hk : k ≤ max_retries)
    (hfail : ∀ i, i < k → op i = .error (err i) ∧
      is_transient_error (err i) = true)
    (hsucc : op k = .ok v) :
    (retry_on_transient_errors max_retries initial_delay backoff_factor
        max_delay jitter rand op).calls = k + 1 ∧
    (retry_on_transient_errors max_retries initial_delay backoff_factor
        max_delay jitter rand op).result = .ok v := by
  have h := retryAux_ok_after op backoff_factor max_delay jitter rand err v k
    max_retries 0 initial_delay hk (by simpa using hfail) (by simpa using hsucc)
  exact ⟨h.2, h.1⟩

/-- A unit that fails transiently twice, then succeeds with the value 42. -/
def opFailTwice : Nat → Except PyError Nat :=
  fun i => if i < 2 then .error (.mk "SomeError" [] "503" none) else .ok 42

theorem retry_transient_then_success_witness :
    2 ≤ 3 ∧
    ((retry_on_transient_errors 3 1 2 60 true (fun _ => 0) opFailTwice).calls
        = 2 + 1 ∧
     (retry_on_transient_errors 3 1 2 60 true (fun _ => 0) opFailTwice).result
        = .ok 42) :=
  ⟨by decide,
   retry_transient_then_success 3 2 1 2 60 true (fun _ => 0) opFailTwice
     (fun _ => .mk "SomeError" [] "503" none) 42 (by decide)
     (fun i hi => by
       match i with
       | 0 => exact ⟨rfl, by decide⟩
       | 1 => exact ⟨rfl, by decide⟩
       | n + 2 => exact absurd hi (by omega))
     rfl⟩

/-- C3: an operation wrapped by `retry_on_transient_errors` that fails
transiently on every attempt is invoked exactly `max_retries + 1` times, and
then the failure raised by the last attempt is re-raised unmodified (no
synthetic retries-exhausted wrapper). -/
theorem retry_exhausted_raises_original {α : Type} (max_retries : Nat)
    (initial_delay backoff_factor max_delay : ℚ) (jitter : Bool)
    (rand : Nat → ℚ) (op : Nat → Except PyError α) (err : Nat → PyError)
    (hfail : ∀ i, op i = .error (err i) ∧ is_transient_error (err i) = true) :
    (retry_on_transient_errors max_retries initial_delay backoff_factor
        max_delay jitter rand op).calls = max_retries + 1 ∧
    (retry_on_transient_errors max_retries initial_delay backoff_factor
        max_delay jitter rand op).result = .error (err max_retries) := by
  have h := retryAux_allfail op backoff_factor max_delay jitter rand err hfail
    max_retries 0 initial_delay
  constructor
  · exact h.2
  · simpa using h.1

/-- A unit that fails transiently on every invocation. -/
def opAlwaysFail : Nat → Except PyError Nat :=
  fun _ => .error (.mk "SomeError" [] "429 Too Many Requests" none)

theorem retry_exhausted_raises_original_witness :
    (retry_on_transient_errors 1 1 2 60 true (fun _ => 0) opAlwaysFail).calls
        = 1 + 1 ∧
    (retry_on_transient_errors 1 1 2 60 true (fun _ => 0) opAlwaysFail).result
        = .error (.mk "SomeError" [] "429 Too Many Requests" none) :=
  retry_exhausted_raises_original 1 1 2 60 true (fun _ => 0) opAlwaysFail
    (fun _ => .mk "SomeError" [] "429 Too Many Requests" none)
    (fun _ => ⟨rfl,
      show is_transient_error (.mk "SomeError" [] "429 Too Many Requests" none)
          = true by decide⟩)

/-- C4: an operation wrapped by `retry_on_transient_errors` whose first failure
is classified non-transient is invoked exactly once, no sleep occurs, and the
failure is propagated immediately, for any configuration values. -/
theorem retry_nontransient_immediate {α : Type} (max_retries : Nat)
    (initial_delay backoff_factor max_delay : ℚ) (jitter : Bool)
    (rand : Nat → ℚ) (op : Nat → Except PyError α) (e : PyError)
    (hop : op 0 = .error e) (he : is_transient_error e = false) :
    (retry_on_transient_errors max_retries initial_delay backoff_factor
        max_delay jitter rand op).result = .error e ∧
    (retry_on_transient_errors max_retries initial_delay backoff_factor
        max_delay jitter rand op).calls = 1 ∧
    (retry_on_transient_errors max_retries initial_delay backoff_factor
        max_delay jitter rand op).sleeps = [] := by
  cases max_retries <;> simp [retry_on_transient_errors, retryAux, hop, he]

/-- A unit that fails with a permanent (non-transient) configuration error. -/
def opAuthFail : Nat → Except PyError Nat :=
  fun _ => .error (.mk "InferenceConfigError" [] "Invalid API key" none)

theorem retry_nontransient_immediate_witness :
    (retry_on_transient_errors 3 1 2 60 true (fun _ => 0) opAuthFail).result
        = .error (.mk "InferenceConfigError" [] "Invalid API key" none) ∧
    (retry_on_transient_errors 3 1 2 60 true (fun _ => 0) opAuthFail).calls
        = 1 ∧
    (retry_on_transient_errors 3 1 2 60 true (fun _ => 0) opAuthFail).sleeps
        = [] :=
  retry_nontransient_immediate 3 1 2 60 true (fun _ => 0) opAuthFail
    (.mk "InferenceConfigError" [] "Invalid API key" none) rfl (by decide)

/-- C9: `retry_chunk_processing` with `enabled = false` invokes the operation
exactly once, sleeps never, and returns or propagates the single invocation's
outcome unchanged (transient or not), for any configuration values. -/
theorem chunk_retry_disabled_single_attempt {α : Type} (max_retries : Nat)
    (initial_delay backoff_factor max_delay : ℚ) (rand : Nat → ℚ)
    (op : Nat → Except PyError α) :
    (retry_chunk_processing max_retries initial_delay backoff_factor
        max_delay false rand op).result = op 0 ∧
    (retry_chunk_processing max_retries initial_delay backoff_factor
        max_delay false rand op).calls = 1 ∧
    (retry_chunk_processing max_retries initial_delay backoff_factor
        max_delay false rand op).sleeps = [] :=
  ⟨rfl, rfl, rfl⟩

/-! ### Claim C6: backoff delays -/

/-- Every delay passed to `time.sleep` by the retry loop is at most
`max_delay * 1.1`: the pre-jitter delay is clamped to `max_delay` and jitter
adds strictly less than a tenth of it. -/
theorem retryAux_sleeps_le {α : Type} (op : Nat → Except PyError α)
    (f md : ℚ) (jit : Bool) (rand : Nat → ℚ)
    (hf : 0 ≤ f) (hmd : 0 ≤ md) (hr : ∀ t, 0 ≤ rand t ∧ rand t < 1) :
    ∀ (remaining attempt : Nat) (delay : ℚ), 0 ≤ delay →
      ∀ d ∈ (retryAux op f md jit rand remaining attempt delay).sleeps,
        d ≤ md * (11 / 10) := by
  intro remaining
  induction remaining with
  | zero =>
    intro attempt delay _ d hdmem
    cases hop : op attempt with
    | ok v => simp [retryAux, hop] at hdmem
    | error e =>
      cases he : is_transient_error e <;> simp [retryAux, hop, he] at hdmem
  | succ r ih =>
    intro attempt delay hd d hdmem
    have hd' : (0 : ℚ) ≤ min (delay * f) md := le_min (mul_nonneg hd hf) hmd
    have hbase0 : (0 : ℚ) ≤ min delay md := le_min hd hmd
    have hbase : min delay md ≤ md := min_le_right _ _
    cases hop : op attempt with
    | ok v => simp [retryAux, hop] at hdmem
    | error e =>
      cases he : is_transient_error e with
      | false => simp [retryAux, hop, he] at hdmem
      | true =>
        cases jit with
        | false =>
          simp [retryAux, hop, he] at hdmem
          rcases hdmem with rfl | hdmem
          · nlinarith
          · exact ih (attempt + 1) (min (delay * f) md) hd' d hdmem
        | true =>
          simp [retryAux, hop, he] at hdmem
          rcases hdmem with rfl | hdmem
          · nlinarith [(hr attempt).1, (hr attempt).2]
          · exact ih (attempt + 1) (min (delay * f) md) hd' d hdmem

/-- With jitter disabled, the delays slept by the retry loop are bounded below
by the first clamped delay and are non-decreasing. -/
theorem retryAux_sleeps_mono {α : Type} (op : Nat → Except PyError α)
    (f md : ℚ) (rand : Nat → ℚ) (hf : 1 ≤ f) (hmd : 0 ≤ md) :
    ∀ (remaining attempt : Nat) (delay : ℚ), 0 ≤ delay →
      (∀ d ∈ (retryAux op f md false rand remaining attempt delay).sleeps,
        min delay md ≤ d) ∧
      List.Chain' (fun a b => a ≤ b)
        (retryAux op f md false rand remaining attempt delay).sleeps := by
  intro remaining
  induction remaining with
  | zero =>
    intro attempt delay _
    cases hop : op attempt with
    | ok v => simp [retryAux, hop]
    | error e => cases he : is_transient_error e <;> simp [retryAux, hop, he]
  | succ r ih =>
    intro attempt delay hd
    have hd0 : (0 : ℚ) ≤ delay * f := mul_nonneg hd (le_trans zero_le_one hf)
    have hd' : (0 : ℚ) ≤ min (delay * f) md := le_min hd0 hmd
    have hkey : min delay md ≤ min (min (delay * f) md) md := by
      have h1 : min delay md ≤ delay * f :=
        le_trans (min_le_left _ _) (le_mul_of_one_le_right hd hf)
      have h2 : min delay md ≤ md := min_le_right _ _
      exact le_min (le_min h1 h2) h2
    cases hop : op attempt with
    | ok v => simp [retryAux, hop]
    | error e =>
      cases he : is_transient_error e with
      | false => simp [retryAux, hop, he]
      | true =>
        have ihr := ih (attempt + 1) (min (delay * f) md) hd'
        simp only [retryAux, hop, he, Bool.true_eq_false, if_false,
          Bool.false_eq_true, List.mem_cons]
        constructor
        · intro d hdmem
          rcases hdmem with rfl | hdmem
          · exact le_refl _
          · exact le_trans hkey (ihr.1 d hdmem)
        · refine List.chain'_cons'.mpr ⟨fun y hy => ?_, ihr.2⟩
          exact le_trans hkey (ihr.1 y (List.mem_of_mem_head? hy))

/-- Jitter draws `0.9` on the first attempt and `0` afterwards — both in
`[0, 1)`, as `random.random()` guarantees. -/
def randDecr : Nat → ℚ := fun t => if t = 0 then 9 / 10 else 0

/-- A unit that fails transiently (pattern "model is overloaded") forever. -/
def opOverloaded : Nat → Except PyError Nat :=
  fun _ => .error (.mk "SomeError" [] "model is overloaded" none)

/-- C6 counterexample: with `backoff_factor = 2 > 1`, `initial_delay =
max_delay = 60`, jitter enabled, and jitter draws `0.9` then `0` (both in
`[0, 1)`), the delays actually slept are `[65.4, 60]` — a strictly decreasing
sequence.  The claim that slept delays are non-decreasing across attempts is
therefore false on the code. -/
theorem retry_backoff_not_monotone_cex :
    (1 : ℚ) < 2 ∧ (∀ t, 0 ≤ randDecr t ∧ randDecr t < 1) ∧
    (retry_on_transient_errors 2 60 2 60 true randDecr opOverloaded).sleeps
      = [327 / 5, 60] ∧
    ¬ List.Chain' (fun a b : ℚ => a ≤ b)
      (retry_on_transient_errors 2 60 2 60 true randDecr opOverloaded).sleeps := by
  have htr : is_transient_error (.mk "SomeError" [] "model is overloaded" none)
      = true := by decide
  have hsleeps : (retry_on_transient_errors 2 60 2 60 true randDecr
      opOverloaded).sleeps = [327 / 5, 60] := by
    simp [retry_on_transient_errors, retryAux, opOverloaded, randDecr, htr]
    norm_num
  refine ⟨by norm_num, fun t => ?_, hsleeps, ?_⟩
  · unfold randDecr
    split <;> norm_num
  · rw [hsleeps]
    simp [List.chain'_cons]
    norm_num

/-- C6 (amended): for every RetryConfig with `backoffFactor > 1` and every run
of the attempt loop, no slept delay ever exceeds `maxDelay * 1.1`; the slept
delays are guaranteed non-decreasing across attempts only when jitter is
disabled (with jitter enabled, a larger random draw on an earlier attempt can
make that slept delay exceed the next one). -/
theorem retry_backoff_bounded {α : Type} (max_retries : Nat)
    (initial_delay backoff_factor max_delay : ℚ) (jitter : Bool)
    (rand : Nat → ℚ) (op : Nat → Except PyError α)
    (hdelay : 0 ≤ initial_delay) (hf : 1 < backoff_factor)
    (hmd : 0 ≤ max_delay) (hr : ∀ t, 0 ≤ rand t ∧ rand t < 1) :
    (∀ d ∈ (retry_on_transient_errors max_retries initial_delay backoff_factor
        max_delay jitter rand op).sleeps, d ≤ max_delay * (11 / 10)) ∧
    (jitter = false → List.Chain' (fun a b => a ≤ b)
      (retry_on_transient_errors max_retries initial_delay backoff_factor
        max_delay jitter rand op).sleeps) := by
  constructor
  · exact retryAux_sleeps_le op backoff_factor max_delay jitter rand
      (le_of_lt (lt_trans zero_lt_one hf)) hmd hr max_retries 0 initial_delay
      hdelay
  · intro hj
    subst hj
    exact (retryAux_sleeps_mono op backoff_factor max_delay rand
      (le_of_lt hf) hmd max_retries 0 initial_delay hdelay).2

theorem retry_backoff_bounded_witness :
    (0 : ℚ) ≤ 1 ∧ (1 : ℚ) < 2 ∧ (0 : ℚ) ≤ 60 ∧
    (∀ t : Nat, (0 : ℚ) ≤ (fun _ : Nat => (0 : ℚ)) t ∧
      (fun _ : Nat => (0 : ℚ)) t < 1) ∧
    ((∀ d ∈ (retry_on_transient_errors 2 1 2 60 false (fun _ => 0)
        opOverloaded).sleeps, d ≤ 60 * (11 / 10)) ∧
     (false = false → List.Chain' (fun a b => a ≤ b)
       (retry_on_transient_errors 2 1 2 60 false (fun _ => 0)
         opOverloaded).sleeps)) :=
  ⟨by norm_num, by norm_num, by norm_num, fun _ => by norm_num,
   retry_backoff_bounded 2 1 2 60 false (fun _ => 0) opOverloaded
     (by norm_num) (by norm_num) (by norm_num) (fun _ => by norm_num)⟩

/-! ### Claim C5: the error classifier -/

/-- `needle` starts `hay` exactly when `hay` decomposes as `needle ++ rest`. -/
theorem leadsWith_iff (needle : List Char) :
    ∀ hay : List Char,
      leadsWith hay needle = true ↔ ∃ rest, hay = needle ++ rest := by
  induction needle with
  | nil =>
    intro hay
    cases hay <;> simp [leadsWith]
  | cons n ns ih =>
    intro hay
    cases hay with
    | nil => simp [leadsWith]
    | cons h hs =>
      simp only [leadsWith, Bool.and_eq_true, beq_iff_eq, ih, List.cons_append,
        List.cons.injEq]
      constructor
      · rintro ⟨rfl, rest, rfl⟩
        exact ⟨rest, rfl, rfl⟩
      · rintro ⟨rest, rfl, rfl⟩
        exact ⟨rfl, rest, rfl⟩

/-- The executable substring test agrees with the declarative "presence of a
substring" reading: `needle` occurs in `hay` iff `hay` decomposes as
`pre ++ needle ++ post`. -/
theorem hasSub_iff (needle : List Char) :
    ∀ hay : List Char,
      hasSub needle hay = true ↔ ∃ pre post, hay = pre ++ needle ++ post := by
  intro hay
  induction hay with
  | nil =>
    simp only [hasSub, List.isEmpty_iff]
    constructor
    · rintro rfl
      exact ⟨[], [], rfl⟩
    · rintro ⟨pre, post, h⟩
      exact (List.append_eq_nil.mp (List.append_eq_nil.mp h.symm).1).2
  | cons c rest ih =>
    simp only [hasSub, Bool.or_eq_true, leadsWith_iff, ih]
    constructor
    · rintro (⟨r, hr⟩ | ⟨pre, post, hp⟩)
      · exact ⟨[], r, by simpa using hr⟩
      · exact ⟨c :: pre, post, by simp [hp]⟩
    · rintro ⟨pre, post, hp⟩
      cases pre with
      | nil =>
        left
        exact ⟨post, by simpa using hp⟩
      | cons p ps =>
        right
        simp only [List.cons_append, List.cons.injEq] at hp
        exact ⟨ps, post, hp.2⟩

/-- The transient substrings enumerated by the spec (§4.1), verbatim. -/
def SPEC_TRANSIENT_SUBSTRINGS : List String := [
    "503",
    "service unavailable",
    "temporarily unavailable",
    "rate limit",
    "429",
    "too many requests",
    "connection reset",
    "timeout",
    "timed out",
    "deadline exceeded",
    "model is overloaded",
    "quota exceeded",
    "resource exhausted",
    "internal server error",
    "502",
    "504",
    "gateway timeout",
    "bad gateway",
]

/-- The transient kind names enumerated by the spec (§4.1), verbatim. -/
def SPEC_TRANSIENT_KINDS : List String := [
    "ServiceUnavailable",
    "RateLimitError",
    "Timeout",
    "ConnectionError",
    "TimeoutError",
    "OSError",
    "RuntimeError",
]

/-- The spec's wording of the classifier (§4.1): the lower-cased textual
message contains at least one of the fixed transient substrings, OR the
error's kind/type name exactly matches one of the fixed transient kinds. -/
def transientSpec (e : PyError) : Prop :=
  (∃ p ∈ SPEC_TRANSIENT_SUBSTRINGS, ∃ pre post,
    (strLower e.msg).toList = pre ++ p.toList ++ post) ∨
  e.typeName ∈ SPEC_TRANSIENT_KINDS

/-- C5: `is_transient_error` returns true iff the lower-cased message contains
one of the fixed transient substrings or the error's type name exactly matches
one of the fixed transient kinds; in particular it is true for messages
containing "503", "429 Too Many Requests", "Connection timeout",
"model is overloaded", and false for "Invalid API key" and "Invalid model ID"
on non-transient kinds. -/
theorem is_transient_error_matches_spec :
    (∀ e : PyError, is_transient_error e = true ↔ transientSpec e) ∧
    is_transient_error (.mk "InferenceRuntimeError" [] "503" none) = true ∧
    is_transient_error
      (.mk "InferenceRuntimeError" [] "429 Too Many Requests" none) = true ∧
    is_transient_error
      (.mk "InferenceRuntimeError" [] "Connection timeout" none) = true ∧
    is_transient_error
      (.mk "InferenceRuntimeError" [] "model is overloaded" none) = true ∧
    is_transient_error
      (.mk "InferenceConfigError" [] "Invalid API key" none) = false ∧
    is_transient_error
      (.mk "InferenceRuntimeError" [] "Invalid model ID" none) = false := by
  refine ⟨?_, by decide, by decide, by decide, by decide, by decide, by decide⟩
  intro e
  have hp : SPEC_TRANSIENT_SUBSTRINGS = TRANSIENT_ERROR_PATTERNS := rfl
  have hk : SPEC_TRANSIENT_KINDS = TRANSIENT_EXCEPTION_TYPES := rfl
  unfold transientSpec
  rw [hp, hk]
  simp only [is_transient_error, List.any_eq_true, Bool.or_eq_true, strIn,
    hasSub_iff, List.contains, List.elem_iff]

/-! ### Claim C10: the kind match ignores the inheritance chain -/

/-- C10: `is_transient_error` compares only the error's own type name against
the transient-kind list; an error whose base classes include a transient kind,
but whose own name is not listed and whose message matches no transient
pattern, is classified permanent. -/
theorem classifier_ignores_inheritance (e : PyError)
    (hbase : ∃ b ∈ e.baseNames, b ∈ TRANSIENT_EXCEPTION_TYPES)
    (hname : e.typeName ∉ TRANSIENT_EXCEPTION_TYPES)
    (hmsg : ∀ p ∈ TRANSIENT_ERROR_PATTERNS, strIn p (strLower e.msg) = false) :
    is_transient_error e = false := by
  simp only [is_transient_error, Bool.or_eq_false_iff, List.any_eq_false]
  refine ⟨fun p hpmem => by simp [hmsg p hpmem], ?_⟩
  rw [Bool.eq_false_iff]
  intro hc
  exact hname (List.elem_iff.mp hc)

/-- A hypothetical subclass of `ConnectionError` and `OSError` whose own class
name is not in the transient-kind list and whose message matches no transient
pattern. -/
def errDerived : PyError :=
  .mk "DerivedConnError" ["ConnectionError", "OSError", "Exception"]
    "something broke" none

theorem classifier_ignores_inheritance_witness :
    (∃ b ∈ errDerived.baseNames, b ∈ TRANSIENT_EXCEPTION_TYPES) ∧
    errDerived.typeName ∉ TRANSIENT_EXCEPTION_TYPES ∧
    (∀ p ∈ TRANSIENT_ERROR_PATTERNS,
      strIn p (strLower errDerived.msg) = false) ∧
    is_transient_error errDerived = false :=
  ⟨by decide, by decide, by decide,
   classifier_ignores_inheritance errDerived (by decide) (by decide)
     (by decide)⟩

/-! ### Claims C1, C7, C8: the dispatcher -/

/-- When every future consumed succeeds, the `as_completed` loop returns the
buffer with each result written at its originating index. -/
theorem fillLoop_ok (outs : Nat → Except PyError ScoredOutput)
    (v : Nat → ScoredOutput) :
    ∀ (order : List Nat) (buf : List (Option ScoredOutput)),
      (∀ i ∈ order, outs i = .ok (v i)) →
      fillLoop outs order buf =
        .ok (order.foldl (fun b i => b.set i (some (v i))) buf) := by
  intro order
  induction order with
  | nil => intro buf _; rfl
  | cons i rest ih =>
    intro buf h
    have hi : outs i = .ok (v i) := h i (List.mem_cons_self i rest)
    simp only [fillLoop, hi, List.foldl_cons]
    exact ih (buf.set i (some (v i)))
      (fun j hj => h j (List.mem_cons_of_mem i hj))

theorem foldl_set_length (v : Nat → ScoredOutput) :
    ∀ (order : List Nat) (buf : List (Option ScoredOutput)),
      (order.foldl (fun b i => b.set i (some (v i))) buf).length
        = buf.length := by
  intro order
  induction order with
  | nil => intro buf; rfl
  | cons i rest ih =>
    intro buf
    simp only [List.foldl_cons, ih, List.length_set]

theorem foldl_set_get_of_not_mem (v : Nat → ScoredOutput) :
    ∀ (order : List Nat) (buf : List (Option ScoredOutput)) (j : Nat),
      j ∉ order →
      (order.foldl (fun b i => b.set i (some (v i))) buf)[j]? = buf[j]? := by
  intro order
  induction order with
  | nil => intro buf j _; rfl
  | cons i rest ih =>
    intro buf j hj
    have hji : i ≠ j := fun h => hj (h ▸ List.mem_cons_self i rest)
    simp only [List.foldl_cons]
    rw [ih _ j (fun h => hj (List.mem_cons_of_mem i h)),
      List.getElem?_set_ne hji]

theorem foldl_set_get_of_mem (v : Nat → ScoredOutput) :
    ∀ (order : List Nat) (buf : List (Option ScoredOutput)) (j : Nat),
      j ∈ order → j < buf.length →
      (order.foldl (fun b i => b.set i (some (v i))) buf)[j]?
        = some (some (v j)) := by
  intro order
  induction order with
  | nil => intro buf j h _; exact absurd h (List.not_mem_nil j)
  | cons i rest ih =>
    intro buf j hmem hlen
    simp only [List.foldl_cons]
    by_cases hj : j ∈ rest
    · exact ih _ j hj (by simpa [List.length_set] using hlen)
    · have hij : j = i := by
        rcases List.mem_cons.mp hmem with h | h
        · exact h
        · exact absurd h hj
      subst hij
      rw [foldl_set_get_of_not_mem v rest _ j hj,
        List.getElem?_set_self (by simpa [List.length_set] using hlen)]

theorem emitLoop_map_some :
    ∀ l : List ScoredOutput, emitLoop (l.map some) = .ok l := by
  intro l
  induction l with
  | nil => rfl
  | cons x xs ih => simp [emitLoop, ih, Except.map]

/-- The sequential path over prompts `i, …, i + n - 1`, when every unit
succeeds, yields all results in input order, invoking each unit once. -/
theorem seqLoop_ok (outs : Nat → Except PyError ScoredOutput)
    (v : Nat → ScoredOutput) :
    ∀ (n i : Nat), (∀ j, j < n → outs (i + j) = .ok (v (i + j))) →
      seqLoop outs i n =
        (.ok ((List.range n).map (fun j => v (i + j))),
          List.replicate n 1) := by
  intro n
  induction n with
  | zero => intro i _; rfl
  | succ n ih =>
    intro i h
    have h0 : outs i = .ok (v i) := by simpa using h 0 (Nat.succ_pos n)
    have hrest := ih (i + 1) (fun j hj => by
      have := h (j + 1) (by omega)
      rwa [show i + (j + 1) = i + 1 + j by omega] at this)
    simp only [seqLoop, h0, hrest, Except.map, Prod.mk.injEq]
    constructor
    · rw [List.range_succ_eq_map]
      simp only [List.map_cons, List.map_map, Nat.add_zero]
      have hfun : ((fun j => v (i + j)) ∘ Nat.succ)
          = fun j => v (i + 1 + j) := by
        funext j
        simp only [Function.comp]
        rw [show i + Nat.succ j = i + 1 + j by omega]
      rw [hfun]
    · simp [List.replicate_succ]

/-- When every future succeeds and the completion order is a permutation of
the indices, the buffer ends up fully populated, index-aligned. -/
theorem fillLoop_complete (outs : Nat → Except PyError ScoredOutput)
    (v : Nat → ScoredOutput) (n : Nat) (order : List Nat)
    (hperm : order.Perm (List.range n))
    (hall : ∀ i ∈ order, outs i = .ok (v i)) :
    fillLoop outs order (List.replicate n none)
      = .ok (((List.range n).map v).map some) := by
  rw [fillLoop_ok outs v order _ hall]
  congr 1
  apply List.ext_getElem?
  intro j
  by_cases hj : j < n
  · rw [foldl_set_get_of_mem v order _ j
      (hperm.mem_iff.mpr (List.mem_range.mpr hj))
      (by simpa [List.length_replicate] using hj)]
    simp [List.getElem?_map, List.getElem?_range hj]
  · rw [foldl_set_get_of_not_mem v order _ j
      (fun hmem => hj (List.mem_range.mp (hperm.mem_iff.mp hmem)))]
    rw [List.getElem?_eq_none (by simpa using Nat.le_of_not_lt hj)]
    rw [List.getElem?_eq_none (by simp; omega)]

/-- C1: for every batch of `N ≥ 0` prompts and every worker count `W ≥ 1`,
when every prompt's backend call succeeds, `infer` produces exactly `N`
results and the `i`-th result is built from the `i`-th prompt's response —
for every completion order of the underlying tasks (any permutation of the
indices). -/
theorem infer_aligned (unit : Nat → Nat → Except PyError String)
    (batch_prompts : List String) (max_workers : Nat) (order : List Nat)
    (t : Nat → String)
    (hW : 1 ≤ max_workers)
    (hperm : order.Perm (List.range batch_prompts.length))
    (hok : ∀ i, i < batch_prompts.length → unit i 0 = .ok (t i)) :
    (infer unit batch_prompts max_workers order).1 =
      .ok ((List.range batch_prompts.length).map
        (fun i => ({ score := 1, output := t i } : ScoredOutput))) := by
  have houts : ∀ i, i < batch_prompts.length →
      process_single_prompt (unit i) = .ok ⟨1, t i⟩ := by
    intro i hi
    simp [process_single_prompt, hok i hi]
  simp only [infer]
  by_cases hcond : 1 < batch_prompts.length ∧ 1 < max_workers
  · rw [if_pos hcond]
    have hmem : ∀ i ∈ order, process_single_prompt (unit i)
        = .ok ((fun i => ({ score := 1, output := t i } : ScoredOutput)) i) := by
      intro i hi
      exact houts i (List.mem_range.mp (hperm.mem_iff.mp hi))
    rw [fillLoop_complete (fun i => process_single_prompt (unit i))
      (fun i => ⟨1, t i⟩) batch_prompts.length order hperm hmem]
    show (emitLoop (((List.range batch_prompts.length).map
        (fun i => ({ score := 1, output := t i } : ScoredOutput))).map some),
      List.replicate batch_prompts.length 1).1 = _
    rw [emitLoop_map_some]
  · rw [if_neg hcond]
    have hseq := seqLoop_ok (fun i => process_single_prompt (unit i))
      (fun i => ⟨1, t i⟩) batch_prompts.length 0
      (fun j hj => by simpa using houts j hj)
    simp only [hseq, Nat.zero_add]

/-- A batch of two units that both succeed on their first invocation. -/
def unitsTwo : Nat → Nat → Except PyError String :=
  fun i _ => .ok (if i = 0 then "ra" else "rb")

/-- The responses of `unitsTwo`, indexed by prompt position. -/
def tTwo : Nat → String := fun i => if i = 0 then "ra" else "rb"

theorem infer_aligned_witness :
    1 ≤ 2 ∧
    ([1, 0] : List Nat).Perm (List.range (["p", "q"] : List String).length) ∧
    (∀ i, i < (["p", "q"] : List String).length →
      unitsTwo i 0 = .ok (tTwo i)) ∧
    (infer unitsTwo ["p", "q"] 2 [1, 0]).1 =
      .ok ((List.range (["p", "q"] : List String).length).map
        (fun i => ({ score := 1, output := tTwo i } : ScoredOutput))) :=
  ⟨by decide, by decide, fun i _ => rfl,
   infer_aligned unitsTwo ["p", "q"] 2 [1, 0] tTwo (by decide) (by decide)
     (fun i _ => rfl)⟩

/-- In completion order, every future before the first failed one succeeds;
consuming the first failed future raises the wrapped error. -/
theorem fillLoop_first_error (outs : Nat → Except PyError ScoredOutput)
    (j : Nat) (e : PyError) (hj : outs j = .error e) :
    ∀ pre : List Nat, (∀ i ∈ pre, ∃ w, outs i = .ok w) →
    ∀ (post : List Nat) (buf : List (Option ScoredOutput)),
      fillLoop outs (pre ++ j :: post) buf =
        .error (InferenceRuntimeError ("Parallel inference error: " ++ e.msg)
          (some e)) := by
  intro pre
  induction pre with
  | nil =>
    intro _ post buf
    simp [fillLoop, hj]
  | cons a rest ih =>
    intro hpre post buf
    obtain ⟨w, hw⟩ := hpre a (List.mem_cons_self a rest)
    simp only [List.cons_append, fillLoop, hw]
    exact ih (fun i hi => hpre i (List.mem_cons_of_mem a hi)) post _

/-- C8: in the parallel path, if a task fails (here: the first failure in
completion order, after any number of successful tasks), `infer` raises an
`InferenceRuntimeError` carrying that task's failure as `original`, and
returns no list of results — there is no partial-success value. -/
theorem infer_fail_fast (unit : Nat → Nat → Except PyError String)
    (batch_prompts : List String) (max_workers : Nat)
    (pre post : List Nat) (j : Nat) (e : PyError)
    (hn : 1 < batch_prompts.length) (hW : 1 < max_workers)
    (hpre : ∀ i ∈ pre, ∃ w, process_single_prompt (unit i) = .ok w)
    (hj : process_single_prompt (unit j) = .error e) :
    (infer unit batch_prompts max_workers (pre ++ j :: post)).1 =
      .error (InferenceRuntimeError ("Parallel inference error: " ++ e.msg)
        (some e)) := by
  simp only [infer]
  rw [if_pos ⟨hn, hW⟩]
  rw [fillLoop_first_error (fun i => process_single_prompt (unit i)) j e hj
    pre hpre post (List.replicate batch_prompts.length none)]

/-- Two units: index 0 succeeds, index 1 fails with a permanent error. -/
def unitsOneBad : Nat → Nat → Except PyError String :=
  fun i _ => if i = 0 then .ok "rx" else .error (.mk "ValueError" [] "boom" none)

/-- The task-level failure raised by `_process_single_prompt` for index 1 of
`unitsOneBad`. -/
def errBoom : PyError :=
  InferenceRuntimeError "DashScope API error: boom"
    (some (.mk "ValueError" [] "boom" none))

theorem infer_fail_fast_witness :
    1 < (["x", "y"] : List String).length ∧ 1 < 2 ∧
    (∀ i ∈ [0], ∃ w, process_single_prompt (unitsOneBad i) = .ok w) ∧
    process_single_prompt (unitsOneBad 1) = .error errBoom ∧
    (infer unitsOneBad ["x", "y"] 2 ([0] ++ 1 :: [])).1 =
      .error (InferenceRuntimeError
        ("Parallel inference error: " ++ errBoom.msg) (some errBoom)) :=
  ⟨by decide, by decide,
   fun i hi => by
     have h0 : i = 0 := by simpa using hi
     subst h0
     exact ⟨⟨1, "rx"⟩, rfl⟩,
   rfl,
   infer_fail_fast unitsOneBad ["x", "y"] 2 [0] [] 1 errBoom (by decide)
     (by decide)
     (fun i hi => by
       have h0 : i = 0 := by simpa using hi
       subst h0
       exact ⟨⟨1, "rx"⟩, rfl⟩)
     rfl⟩

/-- The scenario of C7: three prompts, where the unit for "b" (index 1) fails
transiently on its first two invocations and would succeed on the third, and
the units for "a" and "c" succeed on their first invocation. -/
def unitsFlaky : Nat → Nat → Except PyError String :=
  fun i k =>
    if i = 1 then
      if k < 2 then
        .error (.mk "InferenceRuntimeError" [] "503 service unavailable" none)
      else .ok "rb"
    else if i = 0 then .ok "ra" else .ok "rc"

/-- C7 counterexample: in the scenario, "b"'s first failure is transient, yet
`infer` neither returns `[result_a, result_b, result_c]` nor invokes "b"'s
unit 3 times — the parallel path submits `_process_single_prompt` directly,
with no retry wrapper, so the first transient failure aborts the batch. -/
theorem infer_no_retry_cex :
    is_transient_error
      (.mk "InferenceRuntimeError" [] "503 service unavailable" none) = true ∧
    ¬ ((infer unitsFlaky ["a", "b", "c"] 3 [0, 1, 2]).1 =
        .ok [⟨1, "ra"⟩, ⟨1, "rb"⟩, ⟨1, "rc"⟩] ∧
      (infer unitsFlaky ["a", "b", "c"] 3 [0, 1, 2]).2 = [1, 3, 1]) := by
  refine ⟨by decide, fun h => ?_⟩
  have h1 : (infer unitsFlaky ["a", "b", "c"] 3 [0, 1, 2]).1 =
      .error (InferenceRuntimeError
        "Parallel inference error: DashScope API error: 503 service unavailable"
        (some (InferenceRuntimeError
          "DashScope API error: 503 service unavailable"
          (some (.mk "InferenceRuntimeError" [] "503 service unavailable"
            none))))) := rfl
  rw [h1] at h
  exact Except.noConfusion h.1

/-- C7 (amended): in the parallel path each prompt's task invokes the
single-prompt call directly, with no RetryPolicy wrapper; in the scenario,
`infer` raises an `InferenceRuntimeError` wrapping "b"'s first transient
failure, every unit (including "b"'s) is invoked exactly once, and no results
are returned. -/
theorem infer_no_retry_amended :
    is_transient_error
      (.mk "InferenceRuntimeError" [] "503 service unavailable" none) = true ∧
    (infer unitsFlaky ["a", "b", "c"] 3 [0, 1, 2]).1 =
      .error (InferenceRuntimeError
        "Parallel inference error: DashScope API error: 503 service unavailable"
        (some (InferenceRuntimeError
          "DashScope API error: 503 service unavailable"
          (some (.mk "InferenceRuntimeError" [] "503 service unavailable"
            none))))) ∧
    (infer unitsFlaky ["a", "b", "c"] 3 [0, 1, 2]).2 = [1, 1, 1] :=
  ⟨by decide, rfl, rfl⟩

end LangExtract
